import Mathlib

/-!
Verification of the account-management core of this repository
(user model, directory filter, relational repository, account service),
as a shallow embedding in Lean 4.

Conventions of the embedding:
* Rust `u32` values are `Nat` with explicit `% 2 ^ 32` wherever the source
  performs machine multiplication that may wrap (release semantics).
* Fallible Rust functions returning `AppResult<T>` become
  `Except AppError T`.
* The PostgreSQL store is a pair of row lists (`users`, `user_infos`);
  SQL statements become list operations, and a transaction is explicit
  state passing where an early error returns the pre-transaction state
  (sqlx rolls back a dropped, uncommitted transaction).
* External collaborators (the argon2 crate, the uuid crate, the ILIKE
  operator of PostgreSQL) are modelled by executable Lean functions that
  are faithful to their documented contracts; each such model carries a
  doc comment saying what it stands for.
-/

namespace Alfred

/-- Error type mirroring `AppError` in `src/error.rs` (the variants the
verified operations can produce). -/
inductive AppError where
  | custom (msg : String)
  | dbInternal (msg : String)
  | entryNotFound
  | entryAlreadyExists
  | invalidInput
  | invalidCredentials
  | invalidUserRole (s : String)
  | validationErrors (msgs : List String)
  | cryptoError (msg : String)
  | uuidError
  | builderError
  | accessDenied
  deriving Repr, DecidableEq

/-- `UserRole` from `src/models/user.rs`: Owner, Admin, Employee, Guest;
`Guest` is the `#[default]` variant. -/
inductive UserRole where
  | owner
  | admin
  | employee
  | guest
  deriving Repr, DecidableEq

namespace UserRole

/-- `Default` impl: `Guest` is the default role. -/
def default : UserRole := .guest

/-- `UserRole::is_admin`: true exactly for `Owner` and `Admin`. -/
def is_admin : UserRole → Bool
  | .owner => true
  | .admin => true
  | _ => false

/-- `AsRef<str> for UserRole` / `Display`: the Russian role names used as
the stored string representation. -/
def as_ref : UserRole → String
  | .owner => "Владелец"
  | .admin => "Администратор"
  | .employee => "Сотрудник"
  | .guest => "Гость"

end UserRole

/-- Model of Rust `char::to_lowercase` restricted to the alphabets the
program actually compares (ASCII and the Cyrillic block used by role
names): `A`-`Z` and `А`-`Я` map down by the usual fixed offsets, `Ё` maps
to `ё`, all other characters are unchanged. -/
def rustCharLower (c : Char) : Char :=
  if 'A' ≤ c ∧ c ≤ 'Z' then Char.ofNat (c.toNat + 32)
  else if c.toNat ≥ 0x410 ∧ c.toNat ≤ 0x42F then Char.ofNat (c.toNat + 0x20)
  else if c.toNat = 0x401 then Char.ofNat 0x451
  else c

/-- Model of Rust `str::to_lowercase` (see `rustCharLower`). -/
def rustLower (s : String) : String :=
  String.mk (s.data.map rustCharLower)

/-- `UserRole::from_str` from `src/models/user.rs`: lowercases the input
and accepts the Russian or English name of each role; anything else is
`InvalidUserRole`. -/
def UserRole.from_str (s : String) : Except AppError UserRole :=
  let l := rustLower s
  if l = "владелец" ∨ l = "owner" then .ok .owner
  else if l = "администратор" ∨ l = "admin" then .ok .admin
  else if l = "сотрудник" ∨ l = "employee" then .ok .employee
  else if l = "гость" ∨ l = "guest" then .ok .guest
  else .error (.invalidUserRole s)

/-- Pagination constants from `src/storage/users/mod.rs`. -/
def DEFAULT_PAGE_NUM : Nat := 1

/-- Default page size. -/
def DEFAULT_PER_PAGE : Nat := 10

/-- Maximum page size. -/
def MAX_PER_PAGE : Nat := 100

/-- `UsersFilter` from `src/storage/users/mod.rs`. -/
structure UsersFilter where
  page : Nat
  per_page : Nat
  role : Option UserRole
  search_string : Option String
  deriving Repr, DecidableEq

/-- `UsersFilterBuilder` (generated by `derive_builder`): each field is
`Option`al, `None` meaning "not set, use the default on build". -/
structure UsersFilterBuilder where
  page : Option Nat := none
  per_page : Option Nat := none
  role : Option (Option UserRole) := none
  search_string : Option (Option String) := none
  deriving Repr, DecidableEq

namespace UsersFilterBuilder

/-- The clamp applied by the custom `page` setter:
`page < 1` stores `DEFAULT_PAGE_NUM`, otherwise the given value. -/
def pageClamp (n : Nat) : Nat :=
  if n < 1 then DEFAULT_PAGE_NUM else n

/-- The clamp applied by the custom `per_page` setter:
`< 1` stores `DEFAULT_PER_PAGE`, `> MAX_PER_PAGE` stores `MAX_PER_PAGE`,
otherwise the given value. -/
def perPageClamp (n : Nat) : Nat :=
  if n < 1 then DEFAULT_PER_PAGE
  else if n > MAX_PER_PAGE then MAX_PER_PAGE
  else n

/-- Custom setter `UsersFilterBuilder::page`. -/
def setPage (b : UsersFilterBuilder) (n : Nat) : UsersFilterBuilder :=
  { b with page := some (pageClamp n) }

/-- Custom setter `UsersFilterBuilder::per_page`. -/
def setPerPage (b : UsersFilterBuilder) (n : Nat) : UsersFilterBuilder :=
  { b with per_page := some (perPageClamp n) }

/-- Generated setter for `role`. -/
def setRole (b : UsersFilterBuilder) (r : Option UserRole) : UsersFilterBuilder :=
  { b with role := some r }

/-- Generated setter for `search_string`. -/
def setSearch (b : UsersFilterBuilder) (q : Option String) : UsersFilterBuilder :=
  { b with search_string := some q }

/-- `derive_builder`'s generated `build`: every field of `UsersFilter` has
a declared default, so an unset field falls back to it and `build` never
reports a missing field. -/
def build (b : UsersFilterBuilder) : Except AppError UsersFilter :=
  .ok { page := b.page.getD DEFAULT_PAGE_NUM
        per_page := b.per_page.getD DEFAULT_PER_PAGE
        role := (b.role.getD none)
        search_string := (b.search_string.getD none) }

end UsersFilterBuilder

/-- `UsersFilter::builder()` starting state. -/
def UsersFilter.builder : UsersFilterBuilder := {}

/-- The row offset computed by `PgStorage::list`
(`src/storage/users/pg_users_repository.rs` line 75):
`(filter.page().saturating_sub(1) * filter.per_page()) as i64`.
`saturating_sub` on `Nat` is ordinary truncated subtraction; the `u32`
multiplication wraps modulo `2 ^ 32` before the widening cast to `i64`. -/
def pgOffset (f : UsersFilter) : Nat :=
  ((f.page - 1) * f.per_page) % 2 ^ 32

end Alfred

namespace Alfred

section FilterTheorems

open UsersFilterBuilder

/-- Idempotence of the page clamp. -/
theorem pageClamp_idem (n : Nat) : pageClamp (pageClamp n) = pageClamp n := by
  simp only [pageClamp, DEFAULT_PAGE_NUM]
  split_ifs <;> omega

/-- Idempotence of the per-page clamp. -/
theorem perPageClamp_idem (n : Nat) :
    perPageClamp (perPageClamp n) = perPageClamp n := by
  simp only [perPageClamp, DEFAULT_PER_PAGE, MAX_PER_PAGE]
  split_ifs <;> omega

/-- C5: the filter builder's setters clamp rather than reject:
`page(n)` stores 1 for `n < 1` and `n` otherwise; `per_page(n)` stores 10
for `n < 1`, 100 for `n > 100`, and `n` otherwise (in particular
`per_page 0 ↦ 10`, `per_page 150 ↦ 100`, `page 0 ↦ 1`); re-applying a
setter to an already-clamped value changes nothing (the clamping maps are
idempotent); and `build` succeeds for every builder state. -/
theorem c5_builder_clamps :
    (∀ (b : UsersFilterBuilder) (n : Nat),
      (b.setPage n).page = some (if n < 1 then 1 else n)) ∧
    (∀ (b : UsersFilterBuilder) (n : Nat),
      (b.setPerPage n).per_page =
        some (if n < 1 then 10 else if n > 100 then 100 else n)) ∧
    (UsersFilter.builder.setPerPage 0).per_page = some 10 ∧
    (UsersFilter.builder.setPerPage 150).per_page = some 100 ∧
    (UsersFilter.builder.setPage 0).page = some 1 ∧
    (∀ n, pageClamp (pageClamp n) = pageClamp n) ∧
    (∀ n, perPageClamp (perPageClamp n) = perPageClamp n) ∧
    (∀ (b : UsersFilterBuilder) (n : Nat),
      (b.setPage n).setPage (pageClamp n) = b.setPage n) ∧
    (∀ (b : UsersFilterBuilder) (n : Nat),
      (b.setPerPage n).setPerPage (perPageClamp n) = b.setPerPage n) ∧
    (∀ b : UsersFilterBuilder, ∃ f, b.build = .ok f) := by
  refine ⟨?_, ?_, rfl, rfl, rfl, pageClamp_idem, perPageClamp_idem,
    ?_, ?_, fun b => ⟨_, rfl⟩⟩
  · intro b n
    simp only [setPage, pageClamp, DEFAULT_PAGE_NUM]
  · intro b n
    simp only [setPerPage, perPageClamp, DEFAULT_PER_PAGE, MAX_PER_PAGE]
  · intro b n
    simp [setPage, pageClamp_idem]
  · intro b n
    simp [setPerPage, perPageClamp_idem]

/-- C10: the relational `list` computes its offset as
`(page − 1) * per_page` in wrapping 32-bit arithmetic before widening, and
the builder leaves `page` unbounded above (only `per_page` is clamped);
whenever the mathematical product reaches `2 ^ 32` the offset used is the
product reduced `mod 2 ^ 32`, strictly smaller than the true product; a
built filter with `page = 2 ^ 30 + 1` and `per_page = 100` gets offset `0`
although the true product is `100 * 2 ^ 30`, addressing the start of the
result set instead of lying past its end. -/
theorem c10_offset_wraps_mod_u32 :
    (∀ n, 1 ≤ n → UsersFilterBuilder.pageClamp n = n) ∧
    (∀ (p pp : Nat) (f : UsersFilter),
      ((UsersFilter.builder.setPage p).setPerPage pp).build = .ok f →
      2 ^ 32 ≤ (f.page - 1) * f.per_page →
      pgOffset f = ((f.page - 1) * f.per_page) % 2 ^ 32 ∧
        pgOffset f < (f.page - 1) * f.per_page) ∧
    ((UsersFilter.builder.setPage (2 ^ 30 + 1)).setPerPage 100).build =
        .ok { page := 2 ^ 30 + 1, per_page := 100, role := none,
              search_string := none } ∧
    pgOffset { page := 2 ^ 30 + 1, per_page := 100, role := none,
               search_string := none } = 0 ∧
    (2 ^ 30 + 1 - 1) * 100 = 100 * 2 ^ 30 := by
  refine ⟨?_, ?_, ?_, ?_, by norm_num⟩
  · intro n hn
    simp only [UsersFilterBuilder.pageClamp, DEFAULT_PAGE_NUM]
    split_ifs <;> omega
  · intro p pp f _ hge
    have h : pgOffset f = ((f.page - 1) * f.per_page) % 2 ^ 32 := rfl
    refine ⟨h, ?_⟩
    rw [h]
    have hlt : ((f.page - 1) * f.per_page) % 2 ^ 32 < 2 ^ 32 :=
      Nat.mod_lt _ (by norm_num)
    omega
  · show Except.ok _ = Except.ok _
    simp only [UsersFilter.builder, UsersFilterBuilder.setPage,
      UsersFilterBuilder.setPerPage, UsersFilterBuilder.build,
      UsersFilterBuilder.pageClamp, UsersFilterBuilder.perPageClamp,
      DEFAULT_PAGE_NUM, DEFAULT_PER_PAGE, MAX_PER_PAGE]
    norm_num
  · show ((2 ^ 30 + 1 - 1) * 100) % 2 ^ 32 = 0
    norm_num

/-- Concrete instantiation of `c10_offset_wraps_mod_u32`: the filter built
from `page = u32::MAX` and `per_page = 100` has its offset reduced
modulo `2 ^ 32`. -/
theorem c10_offset_wraps_mod_u32_witness :
    pgOffset { page := 4294967295, per_page := 100, role := none,
               search_string := none } =
        ((4294967295 - 1) * 100) % 2 ^ 32 ∧
      pgOffset { page := 4294967295, per_page := 100, role := none,
                 search_string := none } < (4294967295 - 1) * 100 :=
  c10_offset_wraps_mod_u32.2.1 4294967295 100 _
    (by
      show Except.ok _ = Except.ok _
      simp only [UsersFilter.builder, UsersFilterBuilder.setPage,
        UsersFilterBuilder.setPerPage, UsersFilterBuilder.build,
        UsersFilterBuilder.pageClamp, UsersFilterBuilder.perPageClamp,
        DEFAULT_PAGE_NUM, DEFAULT_PER_PAGE, MAX_PER_PAGE]
      norm_num)
    (by norm_num)

end FilterTheorems

end Alfred

namespace Alfred

/-- Injective numeric code of a string (helper for the digest model). -/
def strEncode (s : String) : Nat :=
  Encodable.encode (s.data.map Char.toNat)

/-- `Char.toNat` is injective. -/
theorem charToNat_inj : Function.Injective Char.toNat := by
  intro a b h
  exact Char.eq_of_val_eq (UInt32.toNat.inj h)

/-- `strEncode` is injective. -/
theorem strEncode_inj : Function.Injective strEncode := by
  intro a b h
  have h2 := Encodable.encode_injective h
  have h3 := List.map_injective_iff.mpr charToNat_inj h2
  exact congrArg String.mk h3

/-- Model of the external argon2 crate's digest computation: a
deterministic function of the salt and the password.  The model is an
ideal collision-free KDF (injective in the password for a fixed salt),
which is the contract `verify(hash(p1), p2) == false` relies on. -/
def argon2Digest (salt : Nat) (pwd : String) : Nat :=
  Nat.pair salt (strEncode pwd)

/-- Model of the PHC string produced by `hash_password`: it self-describes
the salt and carries the digest, here in a unary `$salt$digest` shape. -/
def encodePhc (salt digest : Nat) : List Char :=
  '$' :: (List.replicate salt 'x' ++ '$' :: List.replicate digest 'x')

/-- Helper parser: count the leading `x` characters. -/
def countX : List Char → Nat × List Char
  | [] => (0, [])
  | c :: rest =>
    if c = '$' then (0, c :: rest)
    else if c = 'x' then
      let (n, r) := countX rest
      (n + 1, r)
    else (0, c :: rest)

/-- Model of `PasswordHash::new`: parse the PHC string back into salt and
digest, failing on anything malformed. -/
def phcParse (h : List Char) : Option (Nat × Nat) :=
  match h with
  | '$' :: rest =>
    match countX rest with
    | (salt, '$' :: rest2) =>
      match countX rest2 with
      | (digest, []) => some (salt, digest)
      | _ => none
    | _ => none
  | _ => none

/-- `hash_password` from `src/crypto.rs`, with the random salt made an
explicit parameter (the source draws it from `OsRng`): hash the password
with a fresh salt and return the PHC string; hashing itself never fails in
the model. -/
def hash_password (salt : Nat) (password : String) : Except AppError (List Char) :=
  .ok (encodePhc salt (argon2Digest salt password))

/-- The PHC string `hash_password` wraps in `Ok`. -/
def hashPasswordRaw (salt : Nat) (password : String) : List Char :=
  encodePhc salt (argon2Digest salt password)

/-- `verify_password` from `src/crypto.rs`: parse the stored hash
(`CryptoError` when malformed), recompute with the parsed salt and compare;
a mismatch is `Ok(false)`, never an error. -/
def verify_password (hash : List Char) (password : String) : Except AppError Bool :=
  match phcParse hash with
  | none => .error (.cryptoError "invalid hash")
  | some (salt, digest) => .ok (argon2Digest salt password == digest)

theorem countX_not_x (l : List Char) (h : l.head? ≠ some 'x') :
    countX l = (0, l) := by
  match l with
  | [] => rfl
  | c :: rest =>
    have hc : c ≠ 'x' := by
      intro hx
      exact h (by rw [hx]; rfl)
    simp only [countX]
    by_cases h1 : c = '$'
    · rw [if_pos h1]
    · rw [if_neg h1, if_neg hc]

theorem countX_replicate (n : Nat) (l : List Char)
    (h : l.head? ≠ some 'x') :
    countX (List.replicate n 'x' ++ l) = (n, l) := by
  induction n with
  | zero => simpa using countX_not_x l h
  | succ k ih =>
    rw [List.replicate_succ, List.cons_append]
    simp only [countX]
    rw [if_neg (show ('x' : Char) ≠ '$' by decide)]
    simp [ih]

theorem phcParse_encode (salt digest : Nat) :
    phcParse (encodePhc salt digest) = some (salt, digest) := by
  have h1 : countX (List.replicate salt 'x' ++ '$' :: List.replicate digest 'x')
      = (salt, '$' :: List.replicate digest 'x') :=
    countX_replicate _ _ (by simp)
  have h2 : countX (List.replicate digest 'x') = (digest, []) := by
    have := countX_replicate digest [] (by simp)
    simpa using this
  simp only [phcParse, encodePhc, h1, h2]

/-- C9: credential round trip. For every salt and password `p`, verifying
`p` against the hash freshly produced from `p` returns `Ok(true)`; for
distinct passwords `p1 ≠ p2`, verifying `p2` against a hash produced from
`p1` returns `Ok(false)` (a mismatch is a value, not an error); and
verification errors exactly on a stored hash that fails to parse. -/
theorem c9_credential_roundtrip :
    (∀ (salt : Nat) (p : String),
      hash_password salt p = .ok (hashPasswordRaw salt p) ∧
      verify_password (hashPasswordRaw salt p) p = .ok true) ∧
    (∀ (salt : Nat) (p1 p2 : String), p1 ≠ p2 →
      verify_password (hashPasswordRaw salt p1) p2 = .ok false) ∧
    (∀ (h : List Char) (p : String), phcParse h = none →
      verify_password h p = .error (.cryptoError "invalid hash")) := by
  refine ⟨fun salt p => ⟨rfl, ?_⟩, fun salt p1 p2 hne => ?_, fun h p hp => ?_⟩
  · simp only [verify_password, hashPasswordRaw, phcParse_encode, beq_self_eq_true]
  · simp only [verify_password, hashPasswordRaw, phcParse_encode]
    have hne2 : argon2Digest salt p2 ≠ argon2Digest salt p1 := by
      intro hEq
      have := (Nat.pair_eq_pair.mp hEq).2
      exact hne (strEncode_inj this).symm
    simp [hne2]
  · simp only [verify_password, hp]

/-- Concrete instantiation of `c9_credential_roundtrip`: round trip at
salt 3 and password `"Str0ng!Pass"`, mismatch against `"wrongPass1!"`,
and a malformed stored hash `"zz"` rejected with a crypto error. -/
theorem c9_credential_roundtrip_witness :
    verify_password (hashPasswordRaw 3 "Str0ng!Pass") "Str0ng!Pass" = .ok true ∧
    verify_password (hashPasswordRaw 3 "Str0ng!Pass") "wrongPass1!" = .ok false ∧
    verify_password ['z', 'z'] "Str0ng!Pass" = .error (.cryptoError "invalid hash") :=
  ⟨(c9_credential_roundtrip.1 3 "Str0ng!Pass").2,
   c9_credential_roundtrip.2.1 3 "Str0ng!Pass" "wrongPass1!" (by decide),
   c9_credential_roundtrip.2.2 ['z', 'z'] "Str0ng!Pass" rfl⟩

/-- `UserInfo` from `src/models/user.rs`: optional personal fields. -/
structure UserInfo where
  first_name : Option String := none
  middle_name : Option String := none
  last_name : Option String := none
  username : Option String := none
  avatar_url : Option String := none
  bio : Option String := none
  deriving Repr, DecidableEq

/-- `User` from `src/models/user.rs`.  Uuids are modelled as strings,
timestamps as naturals. -/
structure User where
  user_id : String
  email : String
  password_hash : List Char
  role : UserRole
  info : UserInfo
  created : Nat
  updated : Nat
  deriving Repr, DecidableEq

/-- `is_special_char` from `src/models/user.rs`: the defined
special-character set. -/
def is_special_char (c : Char) : Bool :=
  c = '!' ∨ c = '@' ∨ c = '#' ∨ c = '$' ∨ c = '%' ∨ c = '^' ∨ c = '&' ∨
  c = '*' ∨ c = '(' ∨ c = ')' ∨ c = '_' ∨ c = '-' ∨ c = '+' ∨ c = '=' ∨
  c = '<' ∨ c = '>' ∨ c = '?' ∨ c = '/' ∨ c = '{' ∨ c = '}' ∨ c = '~' ∨
  c = '|' ∨ c = '[' ∨ c = ']' ∨ c = '"' ∨ c = '\\' ∨ c = '\'' ∨ c = '`'

/-- The denylist of common passwords from `validate_password`. -/
def common_passwords : List String :=
  ["password", "12345678", "qwerty", "admin123", "letmein", "welcome",
   "monkey", "sunshine", "password1", "123123", "11111111", "abcd1234",
   "trustno1", "dragon", "baseball"]

/-- `c.is_ascii_digit`. -/
def isAsciiDigit (c : Char) : Bool := '0' ≤ c ∧ c ≤ '9'

/-- `c.is_ascii_uppercase`. -/
def isAsciiUpper (c : Char) : Bool := 'A' ≤ c ∧ c ≤ 'Z'

/-- `c.is_ascii_lowercase`. -/
def isAsciiLower (c : Char) : Bool := 'a' ≤ c ∧ c ≤ 'z'

/-- The rule messages collected by `validate_password`, in source order:
contains a space, denylisted, no digit, no uppercase, no lowercase, no
special character.  (Literal Russian texts abbreviated to stable English
tags; only identity and aggregation of the messages matter here.) -/
def passwordViolations (p : String) : List String :=
  (if p.data.contains ' ' then ["no-spaces"] else []) ++
  (if common_passwords.contains (rustLower p) then ["too-common"] else []) ++
  (if ¬ p.data.any isAsciiDigit then ["need-digit"] else []) ++
  (if ¬ p.data.any isAsciiUpper then ["need-uppercase"] else []) ++
  (if ¬ p.data.any isAsciiLower then ["need-lowercase"] else []) ++
  (if ¬ p.data.any is_special_char then ["need-special"] else [])

/-- `validate_password` from `src/models/user.rs`: `Ok` when no rule is
violated, otherwise a single `ValidationError` whose message carries every
violated rule. -/
def validate_password (p : String) : Except (List String) Unit :=
  match passwordViolations p with
  | [] => .ok ()
  | v => .error v

/-- The `#[validate(length(min = 8, max = 64))]` attribute on
`SignupData.password` (the validator crate counts chars). -/
def passwordLengthOk (p : String) : Bool :=
  8 ≤ p.data.length ∧ p.data.length ≤ 64

/-- Model of Rust `str::trim` (whitespace at both ends removed). -/
def rustTrim (s : String) : String :=
  String.mk
    (((s.data.dropWhile (fun c =>
        c = ' ' ∨ c = '\t' ∨ c = '\n' ∨ c = '\r')).reverse.dropWhile (fun c =>
        c = ' ' ∨ c = '\t' ∨ c = '\n' ∨ c = '\r')).reverse)

/-- Model of the validator crate's `#[validate(email)]` rule (external
collaborator): a single `@` separating a non-empty local part and a
non-empty domain. -/
def validEmail (s : String) : Bool :=
  let l := s.data
  (l.count '@' == 1) &&
  (!(l.takeWhile (fun c => c ≠ '@')).isEmpty) &&
  (!((l.dropWhile (fun c => c ≠ '@')).drop 1).isEmpty)

/-- The password-field errors the validator derive produces: a length
error when the `length` attribute fails, plus the single aggregated
custom error from `validate_password`. -/
def passwordFieldErrors (password : String) : List String :=
  (if ¬ passwordLengthOk password then ["password-length"] else []) ++
  (match validate_password password with
   | .ok _ => []
   | .error v => ["password-rules: " ++ String.intercalate ", " v])

/-- The field errors the validator derive produces for `SignupData`:
an email error when the email rule fails, then the password-field
errors. -/
def signupFieldErrors (email password : String) : List String :=
  (if ¬ validEmail email then ["email"] else []) ++ passwordFieldErrors password

/-- `SignupData` from `src/models/user.rs`. -/
structure SignupData where
  email : String
  password : String
  role : UserRole
  deriving Repr, DecidableEq

/-- `SignupData::try_new`: parse the role string (`InvalidUserRole` on
failure), normalize the email (trim + lowercase), then run validation,
aggregating field errors into `ValidationErrors`. -/
def SignupData.try_new (email password role : String) :
    Except AppError SignupData :=
  match UserRole.from_str role with
  | .error _ => .error (.invalidUserRole role)
  | .ok r =>
    let res : SignupData :=
      { email := rustLower (rustTrim email), password := password, role := r }
    match signupFieldErrors res.email res.password with
    | [] => .ok res
    | errs => .error (.validationErrors errs)

/-- Modelled from the spec: `SigninData` (its definition is not among the
provided sources; §4.5 says sign-in normalizes the email before the
credential check).  `try_from` normalizes the email (trim + lowercase) and
validates its shape and a non-empty password. -/
structure SigninData where
  email : String
  password : String
  deriving Repr, DecidableEq

/-- Modelled from the spec: construction of `SigninData` from raw strings. -/
def SigninData.try_from (email password : String) :
    Except AppError SigninData :=
  let e := rustLower (rustTrim email)
  if validEmail e ∧ ¬ password.isEmpty then
    .ok { email := e, password := password }
  else
    .error (.validationErrors ["signin-input"])

/-- Modelled from the spec: `UserToUpdate` (its definition is not among the
provided sources; §6 gives the boundary shape `AccountUpdateInput{email,
role, profile}`, matching the fields `PgStorage::update` reads from it:
`user.email`, `user.role`, `user.info`). -/
structure UserToUpdate where
  email : String
  role : UserRole
  info : UserInfo
  deriving Repr, DecidableEq

/-- A row of the `users` table (`UserDTO` in
`src/storage/users/pg_users_repository.rs`); the role is stored as text. -/
structure UserRow where
  user_id : String
  email : String
  password_hash : List Char
  role : String
  created : Nat
  updated : Nat
  deriving Repr, DecidableEq

/-- A row of the `user_infos` table (`UserInfoDTO`). -/
structure InfoRow where
  info_id : String
  user_id : String
  first_name : Option String := none
  middle_name : Option String := none
  last_name : Option String := none
  username : Option String := none
  avatar_url : Option String := none
  bio : Option String := none
  created : Nat
  updated : Nat
  deriving Repr, DecidableEq

/-- The relational store: the two related tables. -/
structure PgDb where
  users : List UserRow
  infos : List InfoRow
  deriving Repr, DecidableEq

/-- `From<UserInfoDTO> for UserInfo`. -/
def InfoRow.toUserInfo (r : InfoRow) : UserInfo :=
  { first_name := r.first_name, middle_name := r.middle_name,
    last_name := r.last_name, username := r.username,
    avatar_url := r.avatar_url, bio := r.bio }

/-- `From<(UserDTO, UserInfo)> for User`: the stored role text is parsed
back with `UserRole::from_str`, defaulting to `Guest` when unparsable. -/
def userFrom (u : UserRow) (i : UserInfo) : User :=
  { user_id := u.user_id, email := u.email,
    password_hash := u.password_hash,
    role := (UserRole.from_str u.role).toOption.getD UserRole.default,
    info := i, created := u.created, updated := u.updated }

/-- `UserDTO::get_by_email`: `SELECT * FROM users WHERE email = $1`,
`fetch_optional`, `EntryNotFound` when absent. -/
def getUserRowByEmail (db : PgDb) (email : String) : Except AppError UserRow :=
  match db.users.find? (fun u => u.email == email) with
  | none => .error .entryNotFound
  | some u => .ok u

/-- `UserDTO::get_by_id`: same contract keyed on `user_id`. -/
def getUserRowById (db : PgDb) (id : String) : Except AppError UserRow :=
  match db.users.find? (fun u => u.user_id == id) with
  | none => .error .entryNotFound
  | some u => .ok u

/-- `UserInfoDTO::get_by_user_id`: `fetch_one`, so a missing profile row is
a raw database error (no rows), not `EntryNotFound`. -/
def getInfoRowByUserId (db : PgDb) (id : String) : Except AppError InfoRow :=
  match db.infos.find? (fun i => i.user_id == id) with
  | none => .error (.dbInternal "no rows returned")
  | some i => .ok i

/-- `PgStorage::get` (trait method `get`). -/
def pgGet (db : PgDb) (id : String) : Except AppError User := do
  let u ← getUserRowById db id
  let i ← getInfoRowByUserId db u.user_id
  .ok (userFrom u i.toUserInfo)

/-- `PgStorage::find_by_email`. -/
def pgFindByEmail (db : PgDb) (email : String) : Except AppError User := do
  let u ← getUserRowByEmail db email
  let i ← getInfoRowByUserId db u.user_id
  .ok (userFrom u i.toUserInfo)

/-- `PgStorage::verify_user`: look the account up by email — `EntryNotFound`
propagates as-is — then delegate to `verify_password`. -/
def pgVerifyUser (db : PgDb) (sd : SigninData) : Except AppError Bool := do
  let u ← getUserRowByEmail db sd.email
  verify_password u.password_hash sd.password

/-- The PostgreSQL error text for a unique-constraint violation on
`users.email` (translated by the service via substring match). -/
def dupKeyMsg : String :=
  "duplicate key value violates unique constraint users_email_key"

/-- `UserDTO::create` inside a transaction: hash the password and insert
the account row; the unique email constraint rejects duplicates with the
database's duplicate-key error. -/
def userRowInsert (db : PgDb) (data : SignupData) (salt : Nat)
    (newId : String) (now : Nat) : Except AppError (PgDb × UserRow) :=
  if db.users.any (fun u => u.email == data.email) then
    .error (.dbInternal dupKeyMsg)
  else
    match hash_password salt data.password with
    | .error e => .error e
    | .ok h =>
      let row : UserRow :=
        { user_id := newId, email := data.email, password_hash := h,
          role := data.role.as_ref, created := now, updated := now }
      .ok ({ db with users := db.users ++ [row] }, row)

/-- `UserInfoDTO::create` inside the same transaction: insert the empty
profile row.  `inject` models the forced-failure injection of the
spec's atomicity test (a database fault at exactly this statement). -/
def infoRowInsert (db : PgDb) (userId : String) (newInfoId : String)
    (now : Nat) (inject : Bool) : Except AppError (PgDb × InfoRow) :=
  if inject then
    .error (.dbInternal "injected failure")
  else
    let row : InfoRow :=
      { info_id := newInfoId, user_id := userId, created := now, updated := now }
    .ok ({ db with infos := db.infos ++ [row] }, row)

/-- `PgStorage::create`: one transaction around the `users` insert and the
`user_infos` insert; an error at either statement aborts before `commit`,
and the dropped transaction rolls back, leaving the pre-call state.
Returns the operation result together with the observable state. -/
def pgCreate (db : PgDb) (data : SignupData) (salt : Nat)
    (newId newInfoId : String) (now : Nat) (injectInfoFail : Bool) :
    Except AppError User × PgDb :=
  match userRowInsert db data salt newId now with
  | .error e => (.error e, db)
  | .ok (db1, urow) =>
    match infoRowInsert db1 urow.user_id newInfoId now injectInfoFail with
    | .error e => (.error e, db)
    | .ok (db2, irow) => (.ok (userFrom urow irow.toUserInfo), db2)

/-- `UserInfoDTO::update` inside a transaction: update the profile row,
`EntryNotFound` when no row matches. -/
def infoRowUpdate (db : PgDb) (id : String) (info : UserInfo) (now : Nat) :
    Except AppError (PgDb × InfoRow) :=
  match db.infos.find? (fun i => i.user_id == id) with
  | none => .error .entryNotFound
  | some irow =>
    let irow' : InfoRow :=
      { irow with first_name := info.first_name,
                  middle_name := info.middle_name,
                  last_name := info.last_name, username := info.username,
                  avatar_url := info.avatar_url, bio := info.bio,
                  updated := now }
    .ok ({ db with infos :=
            db.infos.map (fun r => if r.user_id == id then irow' else r) },
         irow')

/-- `UserDTO::update` inside the same transaction; `inject` models the
forced-failure injection at this (second) statement. -/
def userRowUpdate (db : PgDb) (id : String) (email : String)
    (role : String) (now : Nat) (inject : Bool) :
    Except AppError (PgDb × UserRow) :=
  if inject then
    .error (.dbInternal "injected failure")
  else
    match db.users.find? (fun u => u.user_id == id) with
    | none => .error .entryNotFound
    | some urow =>
      let urow' : UserRow :=
        { urow with email := email, role := role, updated := now }
      .ok ({ db with users :=
              db.users.map (fun r => if r.user_id == id then urow' else r) },
           urow')

/-- `PgStorage::update`: one transaction updating the profile row first and
the account row second; an error at either statement aborts before
`commit`, rolling back to the pre-call state. -/
def pgUpdate (db : PgDb) (id : String) (user : UserToUpdate) (now : Nat)
    (injectUserFail : Bool) : Except AppError User × PgDb :=
  match infoRowUpdate db id user.info now with
  | .error e => (.error e, db)
  | .ok (db1, irow) =>
    match userRowUpdate db1 id user.email user.role.as_ref now injectUserFail with
    | .error e => (.error e, db)
    | .ok (db2, urow) => (.ok (userFrom urow irow.toUserInfo), db2)

/-- C4: two-table atomicity.  If the profile-row statement fails after the
account-row insert succeeded inside `create`'s transaction, and if either
statement of `update`'s transaction fails, the whole transaction is rolled
back: the observable state is exactly the pre-call state, so `get` after
the failed call answers as before, and no partial two-table write is
observable. -/
theorem c4_two_table_atomicity :
    (∀ (db : PgDb) (data : SignupData) (salt : Nat) (newId newInfoId : String)
        (now : Nat),
      db.users.any (fun u => u.email == data.email) = false →
      pgCreate db data salt newId newInfoId now true =
        (.error (.dbInternal "injected failure"), db) ∧
      ∀ id, pgGet (pgCreate db data salt newId newInfoId now true).2 id =
        pgGet db id) ∧
    (∀ (db : PgDb) (id : String) (user : UserToUpdate) (now : Nat)
        (r : Except AppError User) (db' : PgDb),
      pgUpdate db id user now true = (r, db') →
      db' = db ∧ (∃ e, r = .error e) ∧
      ∀ uid, pgGet db' uid = pgGet db uid) := by
  constructor
  · intro db data salt newId newInfoId now hnodup
    have hstep : pgCreate db data salt newId newInfoId now true =
        (.error (.dbInternal "injected failure"), db) := by
      simp only [pgCreate, userRowInsert, hnodup, Bool.false_eq_true,
        if_false, hash_password, infoRowInsert, if_true]
    exact ⟨hstep, fun id => by rw [hstep]⟩
  · intro db id user now r db' h
    have hstep : pgUpdate db id user now true =
        ((pgUpdate db id user now true).1, db) ∧
        ∃ e, (pgUpdate db id user now true).1 = .error e := by
      simp only [pgUpdate, userRowUpdate, if_true]
      match hfind : infoRowUpdate db id user.info now with
      | .error e => exact ⟨rfl, e, rfl⟩
      | .ok (db1, irow) => exact ⟨rfl, .dbInternal "injected failure", rfl⟩
    rw [h] at hstep
    obtain ⟨h1, e, h2⟩ := hstep
    have hdb : db' = db := congrArg Prod.snd h1
    have hr : r = .error e := h2
    exact ⟨hdb, ⟨e, hr⟩, fun uid => by rw [hdb]⟩

/-- Concrete instantiation of `c4_two_table_atomicity`: an injected
profile-statement failure after the account insert on an empty store, and
an injected account-statement failure after the profile update on a
one-account store, both leave the store unchanged. -/
theorem c4_two_table_atomicity_witness :
    (pgCreate ⟨[], []⟩
        ⟨"a@x.com", "Str0ng!Pass", .guest⟩ 0 "id1" "inf1" 7 true =
      (.error (.dbInternal "injected failure"), ⟨[], []⟩)) ∧
    (⟨[⟨"u1", "a@x.com", ['h'], "Гость", 1, 1⟩],
      [⟨"i1", "u1", none, none, none, none, none, none, 1, 1⟩]⟩ : PgDb) =
      ⟨[⟨"u1", "a@x.com", ['h'], "Гость", 1, 1⟩],
       [⟨"i1", "u1", none, none, none, none, none, none, 1, 1⟩]⟩ ∧
    (∃ e, (Except.error e : Except AppError User) = .error e) := by
  refine ⟨(c4_two_table_atomicity.1 ⟨[], []⟩
      ⟨"a@x.com", "Str0ng!Pass", .guest⟩ 0 "id1" "inf1" 7 (by decide)).1, ?_, ?_⟩
  · have h := c4_two_table_atomicity.2
      ⟨[⟨"u1", "a@x.com", ['h'], "Гость", 1, 1⟩],
       [⟨"i1", "u1", none, none, none, none, none, none, 1, 1⟩]⟩
      "u1" ⟨"b@x.com", .admin, {}⟩ 9
      (.error (.dbInternal "injected failure"))
      ⟨[⟨"u1", "a@x.com", ['h'], "Гость", 1, 1⟩],
       [⟨"i1", "u1", none, none, none, none, none, none, 1, 1⟩]⟩
      rfl
    exact congrArg (fun d => (⟨d.users, d.infos⟩ : PgDb)) h.1
  · exact ⟨.dbInternal "injected failure", rfl⟩

/-- Model of PostgreSQL `s ILIKE '%q%'` for a wildcard-free search term
(external collaborator): case-insensitive substring containment. -/
def ilike (s q : String) : Bool :=
  decide ((rustLower q).data <:+: (rustLower s).data)

/-- The role condition `u.role = $role` pushed by `PgStorage::list` when
the filter carries a role (bound as `role.to_string()`). -/
def rowMatchesRole (f : UsersFilter) (u : UserRow) : Bool :=
  match f.role with
  | none => true
  | some r => u.role == r.as_ref

/-- The search condition pushed by `PgStorage::list` when the filter
carries a search term: `email ILIKE %q% OR username ILIKE %q% OR
first_name ILIKE %q% OR last_name ILIKE %q%`; a NULL column (absent
profile row or absent field) never matches. -/
def rowMatchesSearch (f : UsersFilter) (row : UserRow × Option InfoRow) : Bool :=
  match f.search_string with
  | none => true
  | some q =>
    ilike row.1.email q ||
    Option.any (fun v => ilike v q) (row.2.bind (fun i => i.username)) ||
    Option.any (fun v => ilike v q) (row.2.bind (fun i => i.first_name)) ||
    Option.any (fun v => ilike v q) (row.2.bind (fun i => i.last_name))

/-- The dynamic `WHERE` clause of `PgStorage::list` / `PgStorage::total`:
both conditions joined with `AND` when both are present. -/
def pgWhere (f : UsersFilter) (row : UserRow × Option InfoRow) : Bool :=
  rowMatchesRole f row.1 && rowMatchesSearch f row

/-- The `LEFT JOIN user_infos ON u.user_id = ui.user_id` row set. -/
def joinedRows (db : PgDb) : List (UserRow × Option InfoRow) :=
  db.users.map (fun u => (u, db.infos.find? (fun i => i.user_id == u.user_id)))

/-- `ORDER BY u.created DESC` over the joined rows. -/
def sortedRows (db : PgDb) : List (UserRow × Option InfoRow) :=
  (joinedRows db).mergeSort (fun a b => b.1.created ≤ a.1.created)

/-- The rows `PgStorage::list`'s query selects before pagination: the
ordered joined rows restricted by the `WHERE` clause. -/
def pgSelect (db : PgDb) (f : UsersFilter) : List (UserRow × Option InfoRow) :=
  (sortedRows db).filter (pgWhere f)

/-- The page of rows `PgStorage::list` fetches:
`LIMIT per_page OFFSET (page-1)*per_page` over the selection. -/
def pgListRows (db : PgDb) (f : UsersFilter) : List (UserRow × Option InfoRow) :=
  ((pgSelect db f).drop (pgOffset f)).take f.per_page

/-- `PgStorage::list`: the fetched rows reconstructed into `User` values
(an absent profile row yields empty profile fields). -/
def pgList (db : PgDb) (f : UsersFilter) : List User :=
  (pgListRows db f).map
    (fun row => userFrom row.1 ((row.2.map InfoRow.toUserInfo).getD {}))

/-- `PgStorage::total`: `COUNT(*)` under the same `WHERE` clause, without
ordering or pagination. -/
def pgTotal (db : PgDb) (f : UsersFilter) : Nat :=
  ((joinedRows db).filter (pgWhere f)).length

/-- C2: when the filter carries both a role and a search term, the
relational `list` combines the two conditions with logical AND: the
selected row set is exactly the joined rows whose stored role text equals
the filter role's text and which pass the case-insensitive substring
search; every row of the returned page satisfies both conditions, so an
account matching only one of them is never returned; `total` counts the
same set. -/
theorem c2_list_role_and_search_conjunction :
    ∀ (db : PgDb) (f : UsersFilter) (r : UserRole) (q : String),
      f.role = some r → f.search_string = some q →
      (∀ row, row ∈ pgSelect db f ↔
        row ∈ joinedRows db ∧
        (row.1.role == r.as_ref) = true ∧ rowMatchesSearch f row = true) ∧
      (∀ row ∈ pgListRows db f,
        (row.1.role == r.as_ref) = true ∧ rowMatchesSearch f row = true) ∧
      pgTotal db f =
        ((joinedRows db).filter (fun row =>
          (row.1.role == r.as_ref) && rowMatchesSearch f row)).length := by
  intro db f r q hrole hsearch
  have hwhere : ∀ row, pgWhere f row =
      ((row.1.role == r.as_ref) && rowMatchesSearch f row) := by
    intro row
    simp only [pgWhere, rowMatchesRole, hrole]
  have hmemSorted : ∀ row : UserRow × Option InfoRow,
      row ∈ sortedRows db ↔ row ∈ joinedRows db := by
    intro row
    exact List.Perm.mem_iff (List.mergeSort_perm (joinedRows db) _)
  have hsel : ∀ row, row ∈ pgSelect db f ↔
      row ∈ joinedRows db ∧
      (row.1.role == r.as_ref) = true ∧ rowMatchesSearch f row = true := by
    intro row
    rw [pgSelect, List.mem_filter, hmemSorted, hwhere, Bool.and_eq_true]
  refine ⟨hsel, ?_, ?_⟩
  · intro row hrow
    have hin : row ∈ pgSelect db f :=
      (List.drop_subset _ _) ((List.take_subset _ _) hrow)
    exact ((hsel row).mp hin).2
  · simp only [pgTotal]
    congr 1
    apply List.filter_congr
    intro row _
    exact hwhere row

/-- Concrete instantiation of `c2_list_role_and_search_conjunction`: a
two-account store filtered by role `Admin` and search term `john`; only
the admin whose email contains `john` is selected. -/
theorem c2_list_role_and_search_conjunction_witness :
    (⟨"u1", "john@x.com", ['h'], "Администратор", 2, 2⟩, (none : Option InfoRow)) ∈
      pgSelect
        ⟨[⟨"u1", "john@x.com", ['h'], "Администратор", 2, 2⟩,
          ⟨"u2", "jane@x.com", ['h'], "Гость", 1, 1⟩], []⟩
        { page := 1, per_page := 10, role := some .admin,
          search_string := some "john" } ∧
    ¬ (⟨"u2", "jane@x.com", ['h'], "Гость", 1, 1⟩, (none : Option InfoRow)) ∈
      pgSelect
        ⟨[⟨"u1", "john@x.com", ['h'], "Администратор", 2, 2⟩,
          ⟨"u2", "jane@x.com", ['h'], "Гость", 1, 1⟩], []⟩
        { page := 1, per_page := 10, role := some .admin,
          search_string := some "john" } := by
  have h := c2_list_role_and_search_conjunction
    ⟨[⟨"u1", "john@x.com", ['h'], "Администратор", 2, 2⟩,
      ⟨"u2", "jane@x.com", ['h'], "Гость", 1, 1⟩], []⟩
    { page := 1, per_page := 10, role := some .admin,
      search_string := some "john" }
    .admin "john" rfl rfl
  constructor
  · exact (h.1 _).mpr (by refine ⟨?_, by decide, by decide⟩; decide)
  · intro hmem
    have := ((h.1 _).mp hmem).2.1
    revert this
    decide

/-- `Except` bind on a success, for unfolding `do` pipelines. -/
theorem exceptBindOk {α β ε : Type} (a : α) (f : α → Except ε β) :
    (Except.ok a >>= f) = f a := rfl

/-- `Except` bind on an error. -/
theorem exceptBindErr {α β ε : Type} (e : ε) (f : α → Except ε β) :
    ((Except.error e : Except ε α) >>= f) = .error e := rfl

/-- `UsersService::signin` from `src/services/users_service.rs`: build the
`SigninData`, call the repository's `verify_user` — note the `?`, which
propagates any repository error, including `EntryNotFound`, unchanged —
then fetch by email on success or answer `InvalidCredentials` when the
password check came back false. -/
def signin (db : PgDb) (email password : String) : Except AppError User := do
  let sd ← SigninData.try_from email password
  let is_verified ← pgVerifyUser db sd
  if is_verified then
    pgFindByEmail db sd.email
  else
    .error .invalidCredentials

/-- Shared fact: verifying a password against the hash freshly produced
from it succeeds. -/
theorem verify_hashed_same (salt : Nat) (p : String) :
    verify_password (hashPasswordRaw salt p) p = .ok true := by
  simp only [verify_password, hashPasswordRaw, phcParse_encode,
    beq_self_eq_true]

/-- Shared fact: verifying a different password against a fresh hash
returns `Ok(false)`. -/
theorem verify_hashed_other (salt : Nat) (p1 p2 : String) (h : p1 ≠ p2) :
    verify_password (hashPasswordRaw salt p1) p2 = .ok false := by
  simp only [verify_password, hashPasswordRaw, phcParse_encode]
  have hne2 : argon2Digest salt p2 ≠ argon2Digest salt p1 := by
    intro hEq
    have := (Nat.pair_eq_pair.mp hEq).2
    exact h (strEncode_inj this).symm
  simp [hne2]

/-- A one-account store used to exercise the sign-in error contract. -/
def signinDemoDb : PgDb :=
  ⟨[⟨"u1", "a@x.com", hashPasswordRaw 0 "Str0ng!Pass", "Гость", 1, 1⟩],
   [⟨"i1", "u1", none, none, none, none, none, none, 1, 1⟩]⟩

/-- C1 counterexample: with `a@x.com` the only stored account, signing in
as the unknown `b@x.com` yields `EntryNotFound` — not
`InvalidCredentials` — so the error kind does distinguish a non-existent
account from a wrong password. -/
theorem c1_signin_unknown_email_entryNotFound :
    signin signinDemoDb "b@x.com" "Whatever1!" = .error .entryNotFound ∧
    AppError.entryNotFound ≠ AppError.invalidCredentials := by
  constructor
  · rfl
  · decide

/-- C1 (amended): `signin` propagates the repository's `EntryNotFound`
unchanged when the credential lookup finds no account with the given
email; `InvalidCredentials` is produced exactly when the account exists
and password verification answers false.  (The claim as stated — lookup
misses surfaced as `InvalidCredentials` — does not hold; see
`c1_signin_unknown_email_entryNotFound`.) -/
theorem c1_amended_signin_error_kinds :
    ∀ (db : PgDb) (email password : String) (sd : SigninData),
      SigninData.try_from email password = .ok sd →
      (db.users.find? (fun u => u.email == sd.email) = none →
        signin db email password = .error .entryNotFound) ∧
      (∀ u, db.users.find? (fun u => u.email == sd.email) = some u →
        verify_password u.password_hash sd.password = .ok false →
        signin db email password = .error .invalidCredentials) := by
  intro db email password sd hsd
  constructor
  · intro hnone
    simp only [signin, hsd, exceptBindOk, pgVerifyUser, getUserRowByEmail,
      hnone, exceptBindErr]
  · intro u hfound hverify
    simp only [signin, hsd, exceptBindOk, pgVerifyUser, getUserRowByEmail,
      hfound, hverify, exceptBindOk]
    rfl

/-- Concrete instantiation of `c1_amended_signin_error_kinds` on
`signinDemoDb`: unknown email gives `EntryNotFound`; known email with a
wrong password gives `InvalidCredentials`. -/
theorem c1_amended_signin_error_kinds_witness :
    signin signinDemoDb "b@x.com" "Whatever1!" = .error .entryNotFound ∧
    signin signinDemoDb "a@x.com" "WrongPass9!" = .error .invalidCredentials := by
  constructor
  · exact (c1_amended_signin_error_kinds signinDemoDb "b@x.com" "Whatever1!"
      ⟨"b@x.com", "Whatever1!"⟩ rfl).1 rfl
  · exact (c1_amended_signin_error_kinds signinDemoDb "a@x.com" "WrongPass9!"
      ⟨"a@x.com", "WrongPass9!"⟩ rfl).2
      ⟨"u1", "a@x.com", hashPasswordRaw 0 "Str0ng!Pass", "Гость", 1, 1⟩ rfl
      (verify_hashed_other 0 "Str0ng!Pass" "WrongPass9!" (by decide))

/-- The role resolution at the top of `UsersService::signup`:
`role.and_then(|r| UserRole::from_str(r).ok()).unwrap_or_default()` —
an absent or unparsable role argument falls back to the default `Guest`. -/
def resolveSignupRole (role : Option String) : UserRole :=
  (role.bind (fun r => (UserRole.from_str r).toOption)).getD UserRole.default

/-- The `Display` messages of `AppError` (thiserror derive), as far as the
service's duplicate-key translation inspects them. -/
def AppError.toMessage : AppError → String
  | .custom m => "Custom error message: " ++ m
  | .dbInternal m => "Database internal error: " ++ m
  | .entryNotFound => "Entry not found"
  | .entryAlreadyExists => "Entry already exists"
  | .invalidInput => "Invalid input"
  | .invalidCredentials => "Invalid credentials"
  | .invalidUserRole _ => "Invalid user role"
  | .validationErrors _ => "Validation errors"
  | .cryptoError m => "Error while hashing " ++ m
  | .uuidError => "Error parsing id"
  | .builderError => "Error building struct"
  | .accessDenied => "Access denied"

/-- Rust `str::contains` on plain substrings. -/
def strContains (s sub : String) : Bool :=
  decide (sub.data <:+: s.data)

/-- `UsersService::signup`: resolve the role (falling back to `Guest`),
build `SignupData` from `(email, password, role.as_ref())`, create through
the repository, translating an error whose message mentions
`duplicate key` into `EntryAlreadyExists`. -/
def signup (db : PgDb) (salt : Nat) (newId newInfoId : String) (now : Nat)
    (injectInfoFail : Bool) (email password : String) (role : Option String) :
    Except AppError User × PgDb :=
  let r := resolveSignupRole role
  match SignupData.try_new email password r.as_ref with
  | .error e => (.error e, db)
  | .ok data =>
    match pgCreate db data salt newId newInfoId now injectInfoFail with
    | (.error e, db') =>
      (.error (if strContains e.toMessage "duplicate key" then
                 .entryAlreadyExists else e), db')
    | (.ok u, db') => (.ok u, db')

/-- Recognizer for the `InvalidUserRole` error kind on a signup result. -/
def isInvalidUserRoleResult : Except AppError User → Bool
  | .error (.invalidUserRole _) => true
  | _ => false

/-- Round trip of the role strings: parsing the stored `as_ref` name of
any role succeeds and returns the same role. -/
theorem from_str_as_ref (r : UserRole) :
    UserRole.from_str r.as_ref = .ok r := by
  cases r <;> rfl

/-- Any error the repository `create` produces is a raw database error
(duplicate key at the account insert, or the injected fault at the
profile insert). -/
theorem pgCreate_error_shape (db : PgDb) (data : SignupData) (salt : Nat)
    (newId newInfoId : String) (now : Nat) (inject : Bool) (e : AppError)
    (db' : PgDb)
    (hc : pgCreate db data salt newId newInfoId now inject = (.error e, db')) :
    e = .dbInternal dupKeyMsg ∨ e = .dbInternal "injected failure" := by
  unfold pgCreate at hc
  split at hc
  · rename_i e1 heq
    have he : e1 = e := by
      have := congrArg Prod.fst hc
      simpa using this
    subst he
    simp only [userRowInsert, hash_password] at heq
    split at heq
    · cases heq
      exact Or.inl rfl
    · cases heq
  · rename_i p heq
    split at hc
    · rename_i e2 heq2
      have he : e2 = e := by
        have := congrArg Prod.fst hc
        simpa using this
      subst he
      simp only [infoRowInsert] at heq2
      split at heq2
      · cases heq2
        exact Or.inr rfl
      · cases heq2
    · rename_i q heq2
      have := congrArg Prod.fst hc
      simp at this

/-- C7: signup never fails with a role error.  An absent role argument and
any unparsable role string resolve to the least-privileged role `Guest`
(the stored name of the resolved role always re-parses, so the
`InvalidUserRole` branch of `SignupData::try_new` is unreachable), and no
input whatsoever makes `signup` return `InvalidUserRole`. -/
theorem c7_signup_role_fallback_never_role_error :
    resolveSignupRole none = .guest ∧
    (∀ (r : String) (e : AppError), UserRole.from_str r = .error e →
      resolveSignupRole (some r) = .guest) ∧
    (∀ (db : PgDb) (salt : Nat) (newId newInfoId : String) (now : Nat)
       (inject : Bool) (email password : String) (role : Option String)
       (s : String),
      (signup db salt newId newInfoId now inject email password role).1 ≠
        .error (.invalidUserRole s)) := by
  refine ⟨rfl, ?_, ?_⟩
  · intro r e h
    simp only [resolveSignupRole, Option.bind, h, Except.toOption]
    rfl
  · intro db salt newId newInfoId now inject email password role s hcon
    unfold signup at hcon
    simp only [] at hcon
    split at hcon
    · rename_i e heq
      have he : e = .invalidUserRole s := by simpa using hcon
      subst he
      simp only [SignupData.try_new, from_str_as_ref] at heq
      split at heq
      · cases heq
      · cases heq
    · rename_i data heq
      split at hcon
      · rename_i e db2 heq2
        rcases pgCreate_error_shape db data salt newId newInfoId now inject
            e db2 heq2 with h | h <;>
          subst h <;>
          · simp only [] at hcon
            split at hcon
            · cases hcon
            · cases hcon
      · rename_i u db2 heq2
        cases hcon

/-- Concrete instantiation of `c7_signup_role_fallback_never_role_error`:
the unparsable role string `bogus` falls back to `Guest`, and a signup
carrying it does not fail with `InvalidUserRole`. -/
theorem c7_signup_role_fallback_witness :
    resolveSignupRole (some "bogus") = .guest ∧
    (signup ⟨[], []⟩ 0 "id1" "i1" 0 false "a@x.com" "Str0ng!Pass"
        (some "bogus")).1 ≠ .error (.invalidUserRole "bogus") :=
  ⟨c7_signup_role_fallback_never_role_error.2.1 "bogus"
      (.invalidUserRole "bogus") rfl,
   c7_signup_role_fallback_never_role_error.2.2 ⟨[], []⟩ 0 "id1" "i1" 0
      false "a@x.com" "Str0ng!Pass" (some "bogus") "bogus"⟩

/-- Decidable equality for `Except` results. -/
instance {ε α : Type} [DecidableEq ε] [DecidableEq α] :
    DecidableEq (Except ε α) := fun a b =>
  match a, b with
  | .ok x, .ok y =>
    if h : x = y then .isTrue (by rw [h]) else
      .isFalse (fun hc => h (Except.ok.inj hc))
  | .error x, .error y =>
    if h : x = y then .isTrue (by rw [h]) else
      .isFalse (fun hc => h (Except.error.inj hc))
  | .ok _, .error _ => .isFalse (fun hc => Except.noConfusion hc)
  | .error _, .ok _ => .isFalse (fun hc => Except.noConfusion hc)

/-- Membership in a conditional singleton. -/
theorem mem_ite_singleton {c : Prop} [Decidable c] (a x : String) :
    a ∈ (if c then [x] else []) ↔ c ∧ a = x := by
  split <;> simp_all

/-- A conditional singleton is empty exactly when the condition fails. -/
theorem ite_singleton_eq_nil {c : Prop} [Decidable c] (x : String) :
    (if c then [x] else ([] : List String)) = [] ↔ ¬ c := by
  split <;> simp_all

/-- `validate_password` succeeds exactly when no rule is violated. -/
theorem validate_password_ok_iff (p : String) :
    validate_password p = .ok () ↔ passwordViolations p = [] := by
  cases h : passwordViolations p <;> simp [validate_password, h]

/-- C8 counterexample: `"Aa\t1!bcd"` contains whitespace (a tab), yet
password validation accepts it — the code checks only the ASCII space
character — and `"Aa1"` violates both the length rule and the
special-character rule, which are reported as two separate field errors
rather than one error listing every violated rule. -/
theorem c8_whitespace_not_rejected :
    ("Aa\t1!bcd".data.any Char.isWhitespace) = true ∧
    validate_password "Aa\t1!bcd" = .ok () ∧
    passwordFieldErrors "Aa\t1!bcd" = [] ∧
    passwordFieldErrors "Aa1" =
      ["password-length", "password-rules: need-special"] := by
  refine ⟨by decide, by decide, by decide, by decide⟩

/-- C8 (amended): password validation fails exactly when a rule is
violated, where the whitespace rule only rejects the ASCII space
character; the violations detected by the rule function (space, denylist,
digit, uppercase, lowercase, special character) are aggregated into its
single error listing exactly the violated rules, while a length violation
is reported by the separate length validator on the same field. -/
theorem c8_amended_password_validation (p : String) :
    (passwordFieldErrors p = [] ↔
      (passwordLengthOk p = true ∧
       p.data.contains ' ' = false ∧
       common_passwords.contains (rustLower p) = false ∧
       p.data.any isAsciiDigit = true ∧
       p.data.any isAsciiUpper = true ∧
       p.data.any isAsciiLower = true ∧
       p.data.any is_special_char = true)) ∧
    (∀ v, validate_password p = .error v →
      (("no-spaces" ∈ v ↔ p.data.contains ' ' = true) ∧
       ("too-common" ∈ v ↔ common_passwords.contains (rustLower p) = true) ∧
       ("need-digit" ∈ v ↔ p.data.any isAsciiDigit = false) ∧
       ("need-uppercase" ∈ v ↔ p.data.any isAsciiUpper = false) ∧
       ("need-lowercase" ∈ v ↔ p.data.any isAsciiLower = false) ∧
       ("need-special" ∈ v ↔ p.data.any is_special_char = false))) := by
  have hvio : passwordViolations p = [] ↔
      (p.data.contains ' ' = false ∧
       common_passwords.contains (rustLower p) = false ∧
       p.data.any isAsciiDigit = true ∧
       p.data.any isAsciiUpper = true ∧
       p.data.any isAsciiLower = true ∧
       p.data.any is_special_char = true) := by
    simp only [passwordViolations, List.append_eq_nil, ite_singleton_eq_nil,
      not_not, Bool.not_eq_true]
    constructor
    · intro h
      exact ⟨h.1.1.1.1.1, h.1.1.1.1.2, by simpa using h.1.1.1.2,
        by simpa using h.1.1.2, by simpa using h.1.2, by simpa using h.2⟩
    · intro h
      exact ⟨⟨⟨⟨⟨h.1, h.2.1⟩, by simp [h.2.2.1]⟩, by simp [h.2.2.2.1]⟩,
        by simp [h.2.2.2.2.1]⟩, by simp [h.2.2.2.2.2]⟩
  constructor
  · have hiff : passwordFieldErrors p = [] ↔
        (passwordLengthOk p = true ∧ passwordViolations p = []) := by
      simp only [passwordFieldErrors, List.append_eq_nil,
        ite_singleton_eq_nil, not_not]
      constructor
      · rintro ⟨hlen, hm⟩
        refine ⟨hlen, ?_⟩
        cases h : passwordViolations p with
        | nil => rfl
        | cons a l => simp [validate_password, h] at hm
      · rintro ⟨hlen, hnil⟩
        rw [(validate_password_ok_iff p).mpr hnil]
        exact ⟨hlen, rfl⟩
    rw [hiff, hvio]
  · intro v hv
    have hveq : v = passwordViolations p := by
      cases h : passwordViolations p with
      | nil =>
        exact absurd hv (by simp [validate_password, h])
      | cons a l =>
        unfold validate_password at hv
        rw [h] at hv
        exact (Except.error.inj hv).symm
    subst hveq
    simp only [passwordViolations, List.mem_append, mem_ite_singleton]
    refine ⟨?_, ?_, ?_, ?_, ?_, ?_⟩ <;>
      simp +decide [Bool.not_eq_true]

/-- Concrete instantiation of `c8_amended_password_validation`: the
password `"nocaps123"` (no uppercase, no special character) fails, and its
single rule error lists exactly those two violations. -/
theorem c8_amended_password_validation_witness :
    (passwordFieldErrors "Str0ng!Pass" = [] ↔
      (passwordLengthOk "Str0ng!Pass" = true ∧
       "Str0ng!Pass".data.contains ' ' = false ∧
       common_passwords.contains (rustLower "Str0ng!Pass") = false ∧
       "Str0ng!Pass".data.any isAsciiDigit = true ∧
       "Str0ng!Pass".data.any isAsciiUpper = true ∧
       "Str0ng!Pass".data.any isAsciiLower = true ∧
       "Str0ng!Pass".data.any is_special_char = true)) ∧
    ("need-uppercase" ∈ ["need-uppercase", "need-special"] ↔
      "nocaps123".data.any isAsciiUpper = false) ∧
    ("need-special" ∈ ["need-uppercase", "need-special"] ↔
      "nocaps123".data.any is_special_char = false) :=
  ⟨(c8_amended_password_validation "Str0ng!Pass").1,
   ((c8_amended_password_validation "nocaps123").2
      ["need-uppercase", "need-special"] (by decide)).2.2.2.1,
   ((c8_amended_password_validation "nocaps123").2
      ["need-uppercase", "need-special"] (by decide)).2.2.2.2.2⟩

/-- Model of `uuid::Uuid::parse_str` (external crate), with ids kept as
strings: any non-empty id string parses to itself, the empty string is
malformed. -/
def uuidParse (s : String) : Except AppError String :=
  if s.isEmpty then .error .uuidError else .ok s

/-- Model of `str::parse::<u32>`: all-digit non-empty strings whose value
fits in 32 bits. -/
def parseU32 (s : String) : Option Nat :=
  if ¬ s.data.isEmpty ∧ s.data.all isAsciiDigit then
    let n := s.data.foldl (fun acc c => acc * 10 + (c.toNat - 48)) 0
    if n < 2 ^ 32 then some n else none
  else none

/-- `UsersService::get_by_id`: parse the id, then fetch from storage. -/
def serviceGetById (db : PgDb) (id : String) : Except AppError User := do
  let uid ← uuidParse id
  pgGet db uid

/-- `UsersListResponse` from `src/services/users_service.rs`. -/
structure UsersListResponse where
  current_filter : UsersFilter
  total : Nat
  users : List User
  deriving Repr, DecidableEq

/-- `UsersService::list`: parse the optional string parameters (silently
falling back to the defaults), build the filter, fetch page and total
under the same filter. -/
def serviceList (db : PgDb) (page per_page role q : Option String) :
    Except AppError UsersListResponse :=
  let user_role_filter := role.bind (fun r => (UserRole.from_str r).toOption)
  match ((((UsersFilter.builder.setPage
        ((page.bind parseU32).getD DEFAULT_PAGE_NUM)).setPerPage
        ((per_page.bind parseU32).getD DEFAULT_PER_PAGE)).setRole
        user_role_filter).setSearch q).build with
  | .error e => .error e
  | .ok filter =>
    .ok { current_filter := filter, total := pgTotal db filter,
          users := pgList db filter }

/-- `get_by_id_handler` from `src/server/routes/users.rs`: parse the path
id (`InvalidInput` when malformed), deny a non-privileged actor whose own
id differs from the target, else delegate to the service. -/
def get_by_id_handler (db : PgDb) (actor : User) (id : String) :
    Except AppError User :=
  match uuidParse id with
  | .ok parsed =>
    if ¬ actor.role.is_admin ∧ actor.user_id ≠ parsed then
      .error .accessDenied
    else
      serviceGetById db id
  | .error _ => .error .invalidInput

/-- `list_handler` from `src/server/routes/users.rs`: deny any
non-privileged actor, else delegate to the service. -/
def list_handler (db : PgDb) (actor : User)
    (page per_page role q : Option String) :
    Except AppError UsersListResponse :=
  if ¬ actor.role.is_admin then .error .accessDenied
  else serviceList db page per_page role q

/-- C3: for a non-privileged actor (neither Owner nor Admin): `list`
always answers `AccessDenied`; `getById` on the actor's own (stored)
account succeeds and returns that account; `getById` on any other id —
in particular any other existing account's id — answers `AccessDenied`. -/
theorem c3_nonprivileged_access :
    ∀ (db : PgDb) (actor : User),
      actor.role.is_admin = false →
      (∀ page per_page role q,
        list_handler db actor page per_page role q = .error .accessDenied) ∧
      (actor.user_id.isEmpty = false →
        pgGet db actor.user_id = .ok actor →
        get_by_id_handler db actor actor.user_id = .ok actor) ∧
      (∀ otherId : String, otherId.isEmpty = false →
        otherId ≠ actor.user_id →
        get_by_id_handler db actor otherId = .error .accessDenied) := by
  intro db actor hpriv
  refine ⟨?_, ?_, ?_⟩
  · intro page per_page role q
    simp only [list_handler, hpriv, Bool.false_eq_true, not_false_eq_true,
      if_true]
  · intro hne hget
    simp only [get_by_id_handler, uuidParse, hne, Bool.false_eq_true,
      if_false]
    rw [if_neg (by simp)]
    simp only [serviceGetById, uuidParse, hne, Bool.false_eq_true, if_false,
      exceptBindOk]
    exact hget
  · intro otherId hne hdiff
    simp only [get_by_id_handler, uuidParse, hne, Bool.false_eq_true,
      if_false]
    rw [if_pos]
    constructor
    · simp [hpriv]
    · exact fun hc => hdiff (hc.symm)

/-- Concrete instantiation of `c3_nonprivileged_access`: a stored Guest
actor `u1` is denied `list`, can read itself, and is denied reading the
other stored account `u2`. -/
theorem c3_nonprivileged_access_witness :
    list_handler
        ⟨[⟨"u1", "a@x.com", ['h'], "Гость", 1, 1⟩,
          ⟨"u2", "b@x.com", ['h'], "Гость", 2, 2⟩],
         [⟨"i1", "u1", none, none, none, none, none, none, 1, 1⟩,
          ⟨"i2", "u2", none, none, none, none, none, none, 2, 2⟩]⟩
        ⟨"u1", "a@x.com", ['h'], .guest, {}, 1, 1⟩ none none none none =
      .error .accessDenied ∧
    get_by_id_handler
        ⟨[⟨"u1", "a@x.com", ['h'], "Гость", 1, 1⟩,
          ⟨"u2", "b@x.com", ['h'], "Гость", 2, 2⟩],
         [⟨"i1", "u1", none, none, none, none, none, none, 1, 1⟩,
          ⟨"i2", "u2", none, none, none, none, none, none, 2, 2⟩]⟩
        ⟨"u1", "a@x.com", ['h'], .guest, {}, 1, 1⟩ "u1" =
      .ok ⟨"u1", "a@x.com", ['h'], .guest, {}, 1, 1⟩ ∧
    get_by_id_handler
        ⟨[⟨"u1", "a@x.com", ['h'], "Гость", 1, 1⟩,
          ⟨"u2", "b@x.com", ['h'], "Гость", 2, 2⟩],
         [⟨"i1", "u1", none, none, none, none, none, none, 1, 1⟩,
          ⟨"i2", "u2", none, none, none, none, none, none, 2, 2⟩]⟩
        ⟨"u1", "a@x.com", ['h'], .guest, {}, 1, 1⟩ "u2" =
      .error .accessDenied := by
  have h := c3_nonprivileged_access
    ⟨[⟨"u1", "a@x.com", ['h'], "Гость", 1, 1⟩,
      ⟨"u2", "b@x.com", ['h'], "Гость", 2, 2⟩],
     [⟨"i1", "u1", none, none, none, none, none, none, 1, 1⟩,
      ⟨"i2", "u2", none, none, none, none, none, none, 2, 2⟩]⟩
    ⟨"u1", "a@x.com", ['h'], .guest, {}, 1, 1⟩ rfl
  exact ⟨h.1 none none none none, h.2.1 rfl (by decide),
    h.2.2 "u2" rfl (by decide)⟩

/-- Modelled from the spec: the user record of the identity-bootstrap
variant (`database/src/users.rs`); the row type it reads — fields
`user_id`, `user_name`, `user_role` of its `shared::models::User` — is not
among the provided sources.  Roles reuse the shared four-level enum. -/
structure BootUser where
  user_id : Int
  user_name : String
  user_role : UserRole
  deriving Repr, DecidableEq

/-- The bootstrap store: the `users` table of the `database` crate. -/
def BootDb := List BootUser

/-- `ORDER BY user_id` as used by `get_all_users`. -/
def sortedBoot (db : List BootUser) : List BootUser :=
  db.mergeSort (fun a b => a.user_id ≤ b.user_id)

/-- `UsersStorage::get_all_users`:
`SELECT * FROM users ORDER BY user_id LIMIT $1 OFFSET $2`. -/
def bootGetAll (db : List BootUser) (limit offset : Nat) : List BootUser :=
  ((sortedBoot db).drop offset).take limit

/-- The page-scanning loop of `UsersStorage::register_user`: walk pages of
100 ordered rows; an empty page ends the scan with `Admin`, a page
containing an admin ends it with `Guest`, otherwise move to the next
page. -/
def bootScan (db : List BootUser) (offset : Nat) : UserRole :=
  if h : (bootGetAll db 100 offset).isEmpty then .admin
  else if (bootGetAll db 100 offset).any (fun u => u.user_role == .admin) then
    .guest
  else bootScan db (offset + 100)
termination_by (sortedBoot db).length - offset
decreasing_by
  simp only [bootGetAll, List.isEmpty_eq_true] at h
  have hlt : offset < (sortedBoot db).length := by
    by_contra hge
    exact h (by
      rw [List.drop_eq_nil_of_le (by omega)]
      simp)
  omega

/-- `UsersStorage::register_user`: an already-known identity returns its
stored role and changes nothing; a first-time identity is inserted with
the role determined by the page scan and that role is returned. -/
def register_user (db : List BootUser) (user_id : Int) (user_name : String) :
    UserRole × List BootUser :=
  match db.find? (fun u => u.user_id == user_id) with
  | some existing => (existing.user_role, db)
  | none =>
    let role := bootScan db 0
    (role, db ++ [⟨user_id, user_name, role⟩])

/-- A register-only history applied from the empty directory. -/
def runRegs (ops : List (Int × String)) : List BootUser :=
  ops.foldl (fun db op => (register_user db op.1 op.2).2) []

/-- `any` is invariant under permutation. -/
theorem perm_any {α : Type} {l1 l2 : List α} (h : l1.Perm l2)
    (p : α → Bool) : l1.any p = l2.any p := by
  rw [Bool.eq_iff_iff]
  simp only [List.any_eq_true]
  constructor
  · rintro ⟨x, hx, hp⟩
    exact ⟨x, h.mem_iff.mp hx, hp⟩
  · rintro ⟨x, hx, hp⟩
    exact ⟨x, h.mem_iff.mpr hx, hp⟩

/-- The page scan answers `Guest` exactly when an admin occurs at or after
the current offset, else `Admin`. -/
theorem bootScan_eq (db : List BootUser) (offset : Nat) :
    bootScan db offset =
      (if ((sortedBoot db).drop offset).any (fun u => u.user_role == .admin)
       then .guest else .admin) := by
  generalize hm : (sortedBoot db).length - offset = m
  induction m using Nat.strong_induction_on generalizing offset with
  | _ m ih =>
    unfold bootScan
    simp only [bootGetAll]
    by_cases h : (((sortedBoot db).drop offset).take 100).isEmpty
    · rw [dif_pos h]
      simp only [List.isEmpty_eq_true] at h
      have hnil : (sortedBoot db).drop offset = [] := by
        by_cases hlen : offset < (sortedBoot db).length
        · exfalso
          have : ((sortedBoot db).drop offset) ≠ [] := by
            intro hc
            have := congrArg List.length hc
            simp only [List.length_drop, List.length_nil] at this
            omega
          rcases List.exists_cons_of_ne_nil this with ⟨a, t, hat⟩
          rw [hat] at h
          simp [List.take_succ_cons] at h
        · rw [List.drop_eq_nil_of_le (by omega)]
      rw [hnil]
      simp
    · rw [dif_neg h]
      by_cases ha : (((sortedBoot db).drop offset).take 100).any
          (fun u => u.user_role == .admin)
      · rw [if_pos ha]
        have : ((sortedBoot db).drop offset).any
            (fun u => u.user_role == .admin) = true := by
          have hsplit := List.take_append_drop 100 ((sortedBoot db).drop offset)
          rw [← hsplit, List.any_append, ha]
          simp
        rw [if_pos this]
      · rw [if_neg ha]
        simp only [List.isEmpty_eq_true] at h
        have hlt : offset < (sortedBoot db).length := by
          by_contra hge
          exact h (by rw [List.drop_eq_nil_of_le (by omega)]; simp)
        have hrec := ih ((sortedBoot db).length - (offset + 100))
          (show (sortedBoot db).length - (offset + 100) < m by omega)
          (offset + 100) rfl
        rw [hrec]
        have hdd : (sortedBoot db).drop (offset + 100) =
            (((sortedBoot db).drop offset).drop 100) := by
          rw [List.drop_drop]
        rw [hdd]
        have hsplit := List.take_append_drop 100 ((sortedBoot db).drop offset)
        have hany : ((sortedBoot db).drop offset).any
            (fun u => u.user_role == .admin) =
            (((sortedBoot db).drop offset).drop 100).any
              (fun u => u.user_role == .admin) := by
          conv_lhs => rw [← hsplit]
          rw [List.any_append]
          simp only [Bool.not_eq_true] at ha
          rw [ha]
          simp
        rw [hany]

/-- The scan at offset 0 answers by the presence of an admin anywhere in
the table. -/
theorem bootScan_zero (db : List BootUser) :
    bootScan db 0 =
      (if db.any (fun u => u.user_role == .admin) then .guest else .admin) := by
  rw [bootScan_eq]
  have hp := perm_any (List.mergeSort_perm db
      (fun a b => a.user_id ≤ b.user_id)) (fun u => u.user_role == .admin)
  simp only [List.drop_zero, sortedBoot]
  simp only [hp]

/-- A register-only history starting from the empty directory is either
still empty or contains an admin. -/
theorem runRegs_admin_invariant (ops : List (Int × String)) :
    ∀ db : List BootUser,
      (db = [] ∨ db.any (fun u => u.user_role == .admin) = true) →
      (ops.foldl (fun db op => (register_user db op.1 op.2).2) db = [] ∨
       (ops.foldl (fun db op => (register_user db op.1 op.2).2) db).any
         (fun u => u.user_role == .admin) = true) := by
  induction ops with
  | nil =>
    intro db h
    exact h
  | cons op rest ih =>
    intro db h
    apply ih
    right
    rcases h with h | h
    · subst h
      simp [register_user, bootScan_zero]
    · cases hfind : db.find? (fun u => u.user_id == op.1) with
      | some u => simpa [register_user, hfind] using h
      | none => simp [register_user, hfind, List.any_append, h]

/-- C6: the identity-bootstrap registration policy.  Registering into the
empty directory grants `Admin` (the top role this policy ever grants) and
stores that single account; a first-time registrant into a directory that
contains an admin — which, by the invariant below, any non-empty
register-only history does — is granted `Guest` and appended; re-register
of a known identity returns its stored role and changes nothing; and
every directory reachable by register_user alone is empty or contains an
admin. -/
theorem c6_bootstrap_registration :
    (∀ (uid : Int) (name : String),
      register_user [] uid name = (.admin, [⟨uid, name, .admin⟩])) ∧
    (∀ (db : List BootUser) (uid : Int) (name : String),
      db.any (fun u => u.user_role == .admin) = true →
      db.find? (fun u => u.user_id == uid) = none →
      register_user db uid name = (.guest, db ++ [⟨uid, name, .guest⟩])) ∧
    (∀ (db : List BootUser) (uid : Int) (name : String) (u : BootUser),
      db.find? (fun u => u.user_id == uid) = some u →
      register_user db uid name = (u.user_role, db)) ∧
    (∀ ops : List (Int × String),
      runRegs ops = [] ∨
      (runRegs ops).any (fun u => u.user_role == .admin) = true) := by
  refine ⟨?_, ?_, ?_, ?_⟩
  · intro uid name
    simp [register_user, bootScan_zero]
  · intro db uid name hadm hfind
    simp only [register_user, hfind, bootScan_zero, hadm, if_true]
  · intro db uid name u hfind
    simp only [register_user, hfind]
  · intro ops
    exact runRegs_admin_invariant ops [] (Or.inl rfl)

/-- Concrete instantiation of `c6_bootstrap_registration`: user 7 founds
the directory as Admin, user 8 then joins as Guest, and re-registering
user 7 returns Admin and changes nothing. -/
theorem c6_bootstrap_registration_witness :
    register_user [] 7 "alice" = (.admin, [⟨7, "alice", .admin⟩]) ∧
    register_user [⟨7, "alice", .admin⟩] 8 "bob" =
      (.guest, [⟨7, "alice", .admin⟩, ⟨8, "bob", .guest⟩]) ∧
    register_user [⟨7, "alice", .admin⟩, ⟨8, "bob", .guest⟩] 7 "alice" =
      (.admin, [⟨7, "alice", .admin⟩, ⟨8, "bob", .guest⟩]) := by
  refine ⟨c6_bootstrap_registration.1 7 "alice", ?_, ?_⟩
  · have h := c6_bootstrap_registration.2.1 [⟨7, "alice", .admin⟩] 8 "bob"
      (by decide) (by decide)
    simpa using h
  · have h := c6_bootstrap_registration.2.2.1
      [⟨7, "alice", .admin⟩, ⟨8, "bob", .guest⟩] 7 "alice"
      ⟨7, "alice", .admin⟩ (by decide)
    simpa using h
